import Mathlib

/-!
# Verification of the GolfV2 utilisation pipeline

Shallow embedding of the two scripts of the repository:

* `golf_scraper.py` — in particular `bookings_from_label`, the free-text
  status-label interpreter (the regex `(\d+)\s*/\s*(\d+)\s*open` searched
  case-insensitively in the lowercased label, the `"waitlist"` substring
  check, and the `"(1/2 open)"` fallback).
* `scarper_api.py` — `fetch_range`'s record normalisation
  (`bays_booked = capacity - available_spot_count`, `util = booked/capacity`)
  and `main`'s four rollup tables (hourly, daily, day-of-week average,
  season average) built with pandas `groupby` (sorted keys, summed or
  averaged values).

Machine integers are modelled by `Int`/`Nat`, pandas floats by `Rat`
(the aggregation only divides sums of integers), strings by `String` /
`List Char`.  Character classes (`\d`, `\s`, `.lower()`) are modelled at
ASCII level, which covers every label shape the scripts handle.
-/

/-! ## Label interpreter (`golf_scraper.bookings_from_label`) -/

/-- The character class `\s` of the Python `re` module (ASCII part):
space, tab, newline, carriage return, vertical tab, form feed. -/
def isPySpace (c : Char) : Bool :=
  c == ' ' || c == '\t' || c == '\n' || c == '\r' || c == '\x0B' || c == '\x0C'

/-- Maximal run of decimal digits at the head of the list, together with
the rest.  Models a greedy `\d+` (for the pattern at hand greedy matching
without backtracking is exact: after `\d+` the pattern requires `\s*`
followed by a non-digit literal, so a shorter digit run can never succeed
when the maximal one fails). -/
def takeDigits : List Char → List Char × List Char
  | [] => ([], [])
  | c :: cs =>
    if c.isDigit then
      let r := takeDigits cs
      (c :: r.1, r.2)
    else ([], c :: cs)

/-- Drop a maximal run of whitespace: a greedy `\s*` (again exact here,
since each `\s*` of the pattern is followed by a non-whitespace literal). -/
def dropSpaces : List Char → List Char
  | [] => []
  | c :: cs => if isPySpace c then dropSpaces cs else c :: cs

/-- Numeric value of a digit string, as Python's `int`. -/
def digitsVal (ds : List Char) : ℕ :=
  ds.foldl (fun n c => 10 * n + (c.toNat - 48)) 0

/-- The literal tail `open` of the regex (the label is lowercased before
the search, so `re.I` reduces to matching the lowercase literal). -/
def openLit : List Char := ['o', 'p', 'e', 'n']

/-- Attempt to match `(\d+)\s*/\s*(\d+)\s*open` at the head of the list,
returning the two captured numbers. -/
def matchFracOpen (s : List Char) : Option (ℕ × ℕ) :=
  let p1 := takeDigits s
  if p1.1.isEmpty then none
  else
    match dropSpaces p1.2 with
    | '/' :: s3 =>
      let p2 := takeDigits (dropSpaces s3)
      if p2.1.isEmpty then none
      else if openLit.isPrefixOf (dropSpaces p2.2) then
        some (digitsVal p1.1, digitsVal p2.1)
      else none
    | _ => none

/-- `re.search` for the pattern: try to match at each position from the
left, returning the captures of the leftmost successful position. -/
def searchFracOpen : List Char → Option (ℕ × ℕ)
  | [] => matchFracOpen []
  | c :: cs =>
    match matchFracOpen (c :: cs) with
    | some r => some r
    | none => searchFracOpen cs

/-- Python's `str.lower` (ASCII level), producing the character list the
matcher works on. -/
def lowerStr (t : String) : List Char := t.toList.map Char.toLower

/-- Python's substring operator `pat in s` on character lists. -/
def containsSub (pat : List Char) : List Char → Bool
  | [] => pat.isEmpty
  | c :: cs => pat.isPrefixOf (c :: cs) || containsSub pat cs

/-- The substring checked first: `"waitlist"`. -/
def waitlistLit : List Char := "waitlist".toList

/-- The substring of the fallback branch: `"(1/2 open)"`. -/
def halfOpenLit : List Char := "(1/2 open)".toList

/-- `golf_scraper.bookings_from_label`: lowercase the label; `"waitlist"`
substring ⇒ 4; otherwise search the `(\d+)\s*/\s*(\d+)\s*open` pattern:
no match ⇒ 2 if the text contains `"(1/2 open)"` else 0; a match with
total 4 ⇒ `4 - open_cnt` (Python ints may go negative, hence `Int`);
total 2 ⇒ 2; any other total ⇒ 0. -/
def bookings_from_label (text : String) : ℤ :=
  let t := lowerStr text
  if containsSub waitlistLit t then 4
  else
    match searchFracOpen t with
    | none => if containsSub halfOpenLit t then 2 else 0
    | some (o, tot) =>
      if tot = 4 then (4 : ℤ) - (o : ℤ)
      else if tot = 2 then 2
      else 0

/-- The variant of `bookings_from_label` with the exact-text
`"(1/2 open)"` fallback branch deleted (claim C10 compares the two). -/
def bookings_from_label_nofb (text : String) : ℤ :=
  let t := lowerStr text
  if containsSub waitlistLit t then 4
  else
    match searchFracOpen t with
    | none => 0
    | some (o, tot) =>
      if tot = 4 then (4 : ℤ) - (o : ℤ)
      else if tot = 2 then 2
      else 0

/-- The interpretation claim C4 describes, built from the spec's
priority rules with known capacity 4: on a regex match whose total is
not a known capacity the interpreter "falls through to the later rules"
(the exact-text `"(1/2 open)"` special case, then the 0 fallback).  The
source instead decides totals 2 and other totals inside the match branch
and never falls through. -/
def bookings_from_label_specC4 (text : String) : ℤ :=
  let t := lowerStr text
  if containsSub waitlistLit t then 4
  else
    match searchFracOpen t with
    | none => if containsSub halfOpenLit t then 2 else 0
    | some (o, tot) =>
      if tot = 4 then (4 : ℤ) - (o : ℤ)
      else if containsSub halfOpenLit t then 2
      else 0

/-- `bookings_from_label` together with its observable side effects: the
second component records whether the call emitted any diagnostic
(log/flag/counter update).  No branch of the source function performs any
I/O or updates any counter, so the component is uniformly `false`. -/
def bookings_from_label_diag (text : String) : ℤ × Bool :=
  (bookings_from_label text, false)

/-! ## API normalisation (`scarper_api.fetch_range`) -/

/-- One record of the backend API (`results` entries), restricted to the
fields `fetch_range` reads.  `start_dt` is the class instant converted to
the facility's time zone, encoded as
`(year*10000 + month*100 + day) * 10000 + hour*100 + minute` in local
time; the UTC→Eastern conversion of the source is an injective
re-labelling of instants that no claim inspects, so the embedding works
directly with the local encoding.  Chronological order of instants is
numeric order of the encoding. -/
structure ApiRecord where
  location : String
  start_dt : ℕ
  capacity : ℤ
  available_spot_count : ℤ
deriving DecidableEq, Repr

/-- One row of the DataFrame `fetch_range` returns (columns
`location, capacity, bays_booked, util, start_dt`; the `id` column is
never read afterwards and is omitted). -/
structure Row where
  location : String
  capacity : ℤ
  bays_booked : ℤ
  util : ℚ
  start_dt : ℕ
deriving DecidableEq, Repr

/-- The row-building core of `fetch_range`:
`bays_booked = capacity - available_spot_count`,
`util = bays_booked / capacity`.  Every record of the payload becomes a
row; the function performs no validation, clamping, flagging or
rejection. -/
def fetch_rows (rs : List ApiRecord) : List Row :=
  rs.map (fun r =>
    { location := r.location
      capacity := r.capacity
      bays_booked := r.capacity - r.available_spot_count
      util := ((r.capacity - r.available_spot_count : ℤ) : ℚ) / (r.capacity : ℚ)
      start_dt := r.start_dt })

/-! ## Calendar helpers (`start_dt.dt.date`, `.day_name()`, `classify_season`) -/

/-- Local calendar date of a timestamp code (`start_dt.dt.date`). -/
def dateOf (ts : ℕ) : ℕ := ts / 10000

/-- Month of a date code. -/
def monthOf (date : ℕ) : ℕ := (date / 100) % 100

/-- Day of week of a date code, Monday = 0 … Sunday = 6 (the numbering
pandas uses for its categorical codes).  Standard proleptic-Gregorian
days-from-civil computation. -/
def dowIdx (date : ℕ) : ℕ :=
  let y := date / 10000
  let m := monthOf date
  let d := date % 100
  let y2 := if m ≤ 2 then y - 1 else y
  let era := y2 / 400
  let yoe := y2 - era * 400
  let mp := if m ≤ 2 then m + 9 else m - 3
  let doy := (153 * mp + 2) / 5 + (d - 1)
  let doe := yoe * 365 + yoe / 4 - yoe / 100 + doy
  (era * 146097 + doe + 2) % 7

/-- `pandas.Timestamp.day_name()` for a day-of-week code. -/
def dayName : ℕ → String
  | 0 => "Monday"
  | 1 => "Tuesday"
  | 2 => "Wednesday"
  | 3 => "Thursday"
  | 4 => "Friday"
  | 5 => "Saturday"
  | 6 => "Sunday"
  | _ => ""

/-- Position of a day name in the categorical order
`["Monday",…,"Sunday"]` of the script (`dow_order`); 7 for a string that
is not a day name (never produced by the pipeline). -/
def dowOrderIdx (s : String) : ℕ :=
  if s = "Monday" then 0
  else if s = "Tuesday" then 1
  else if s = "Wednesday" then 2
  else if s = "Thursday" then 3
  else if s = "Friday" then 4
  else if s = "Saturday" then 5
  else if s = "Sunday" then 6
  else 7

/-- `scarper_api.classify_season` on the local month. -/
def classify_season (month : ℕ) : String :=
  if month = 12 ∨ month = 1 ∨ month = 2 then "Winter"
  else if month = 3 ∨ month = 4 ∨ month = 5 then "Spring"
  else if month = 6 ∨ month = 7 ∨ month = 8 then "Summer"
  else "Fall"

/-- Season name for a categorical code, inverse of the coding of the
ordered category list `["Winter","Spring","Summer","Fall"]`. -/
def seasonName : ℕ → String
  | 0 => "Winter"
  | 1 => "Spring"
  | 2 => "Summer"
  | 3 => "Fall"
  | _ => ""

/-- Categorical code of a season in the order
`["Winter","Spring","Summer","Fall"]` of the script. -/
def seasonIdx (month : ℕ) : ℕ :=
  if month = 12 ∨ month = 1 ∨ month = 2 then 0
  else if month = 3 ∨ month = 4 ∨ month = 5 then 1
  else if month = 6 ∨ month = 7 ∨ month = 8 then 2
  else 3

/-! ## Generic grouped aggregation (pandas `groupby` with sorted keys)

`df.groupby(keys).agg(...)` sorts the distinct key tuples and computes
one aggregate row per key from the member rows of that key.  The member
multiset is order-independent, and all aggregates used by the script
(sums of integer columns, means of rational columns) are functions of
that multiset, so the embedding computes each aggregate from the
filtered member list. -/

/-- Lexicographic "less or equal" on pairs, the order `groupby` sorts a
two-column key by. -/
def lexLe {α β : Type} [LinearOrder α] [LinearOrder β] (a b : α × β) : Prop :=
  a.1 < b.1 ∨ (a.1 = b.1 ∧ a.2 ≤ b.2)

instance {α β : Type} [LinearOrder α] [LinearOrder β] :
    DecidableRel (lexLe (α := α) (β := β)) := fun a b =>
  decidable_of_iff (a.1 < b.1 ∨ (a.1 = b.1 ∧ a.2 ≤ b.2)) Iff.rfl

instance {α β : Type} [LinearOrder α] [LinearOrder β] :
    IsTotal (α × β) lexLe where
  total a b := by
    rcases lt_trichotomy a.1 b.1 with h | h | h
    · exact Or.inl (Or.inl h)
    · rcases le_total a.2 b.2 with h2 | h2
      · exact Or.inl (Or.inr ⟨h, h2⟩)
      · exact Or.inr (Or.inr ⟨h.symm, h2⟩)
    · exact Or.inr (Or.inl h)

instance {α β : Type} [LinearOrder α] [LinearOrder β] :
    IsTrans (α × β) lexLe where
  trans a b c hab hbc := by
    rcases hab with h1 | ⟨h1, h1'⟩
    · rcases hbc with h2 | ⟨h2, _⟩
      · exact Or.inl (h1.trans h2)
      · exact Or.inl (h2 ▸ h1)
    · rcases hbc with h2 | ⟨h2, h2'⟩
      · exact Or.inl (h1 ▸ h2)
      · exact Or.inr ⟨h1.trans h2, h1'.trans h2'⟩

instance {α β : Type} [LinearOrder α] [LinearOrder β] :
    IsAntisymm (α × β) lexLe where
  antisymm a b hab hba := by
    rcases hab with h1 | ⟨h1, h1'⟩
    · rcases hba with h2 | ⟨h2, _⟩
      · exact absurd (h1.trans h2) (lt_irrefl _)
      · exact absurd h1 (h2 ▸ lt_irrefl _)
    · rcases hba with h2 | ⟨h2, h2'⟩
      · exact absurd h2 (h1 ▸ lt_irrefl _)
      · exact Prod.ext h1 (le_antisymm h1' h2')

/-- The sorted list of distinct key values occurring in a column:
the index a pandas `groupby`/`reset_index` produces. -/
def sortKeys {κ : Type} [DecidableEq κ] (le : κ → κ → Prop) [DecidableRel le]
    (ks : List κ) : List κ :=
  List.insertionSort le ks.dedup

/-! ## The four rollup tables of `scarper_api.main` -/

/-- One row of `utilization_by_hour.csv`:
`df.groupby(["location","start_dt"]).agg(bay_hours_offered=("capacity","sum"),
bay_hours_sold=("bays_booked","sum"))`, then
`utilisation = bay_hours_sold / bay_hours_offered`. -/
structure HourRow where
  location : String
  start_dt : ℕ
  bay_hours_offered : ℤ
  bay_hours_sold : ℤ
  utilisation : ℚ
deriving DecidableEq, Repr

/-- One row of `daily_utilization_summary.csv` (`date_local` is the local
date, `dow` its `day_name()`). -/
structure DayRow where
  location : String
  date_local : ℕ
  dow : String
  hours_offered : ℤ
  hours_sold : ℤ
  utilisation : ℚ
deriving DecidableEq, Repr

/-- One row of `dow_utilization.csv`.  `dowCode` is the code of the `dow`
categorical (`Monday` = 0 … `Sunday` = 6) that the final
`sort_values(["location","dow"])` orders by. -/
structure DowRow where
  location : String
  dowCode : ℕ
  dow : String
  avg_utilisation : ℚ
deriving DecidableEq, Repr

/-- One row of the per-location season average
(`grp.groupby("season")["utilisation"].mean()`), with the categorical
code of the season (`Winter` = 0 … `Fall` = 3). -/
structure SeasonRow where
  location : String
  seasonCode : ℕ
  season : String
  avg_utilisation : ℚ
deriving DecidableEq, Repr

/-- Grouping key of the hourly rollup. -/
def hourKey (r : Row) : String × ℕ := (r.location, r.start_dt)

/-- `main` step 1: the hourly rollup.  One row per distinct
`(location, start_dt)` in sorted key order; `capacity` and `bays_booked`
are summed over the member records, utilisation is the ratio of the
sums. -/
def hourRollup (l : List Row) : List HourRow :=
  (sortKeys lexLe (l.map hourKey)).map (fun k =>
    let g := l.filter (fun r => hourKey r = k)
    let offered := (g.map (fun r => r.capacity)).sum
    let sold := (g.map (fun r => r.bays_booked)).sum
    { location := k.1
      start_dt := k.2
      bay_hours_offered := offered
      bay_hours_sold := sold
      utilisation := (sold : ℚ) / (offered : ℚ) })

/-- Daily grouping key of a raw canonical record: its location and local
date.  The hourly keys sharing a given daily key partition exactly the
raw records carrying that daily key (used to relate the daily rollup to
the raw member records). -/
def dayRawKey (r : Row) : String × ℕ := (r.location, dateOf r.start_dt)

/-- Grouping key of the daily rollup.  The script groups by
`(location, date_local, dow)`; `dow` is `day_name()` of `date_local`, so
the groups (and their sorted order) coincide with grouping by
`(location, date_local)`. -/
def dayKey (h : HourRow) : String × ℕ := (h.location, dateOf h.start_dt)

/-- `main` step 2: the daily rollup of the hourly table.  Offered and
sold bay-hours are summed per `(location, date_local)`, utilisation is
the ratio of the sums, `dow` is the day name of the date. -/
def dayRollup (hs : List HourRow) : List DayRow :=
  (sortKeys lexLe (hs.map dayKey)).map (fun k =>
    let g := hs.filter (fun h => dayKey h = k)
    let offered := (g.map (fun h => h.bay_hours_offered)).sum
    let sold := (g.map (fun h => h.bay_hours_sold)).sum
    { location := k.1
      date_local := k.2
      dow := dayName (dowIdx k.2)
      hours_offered := offered
      hours_sold := sold
      utilisation := (sold : ℚ) / (offered : ℚ) })

/-- Grouping key of the day-of-week average: the `dow` string column,
represented by its categorical code (`dow_order` position), paired with
the location. -/
def dowKey (d : DayRow) : String × ℕ := (d.location, dowOrderIdx d.dow)

/-- `main` step 3: `df_day.groupby(["location","dow"])` with
`avg_utilisation=("utilisation","mean")`, reordered by
`sort_values(["location","dow"])` after the `dow` column is made
categorical with order Monday→Sunday.  The mean is the sum of the
member utilisations divided by their number. -/
def dow_avg (ds : List DayRow) : List DowRow :=
  (sortKeys lexLe (ds.map dowKey)).map (fun k =>
    let g := ds.filter (fun d => dowKey d = k)
    { location := k.1
      dowCode := k.2
      dow := dayName k.2
      avg_utilisation := (g.map (fun d => d.utilisation)).sum / (g.length : ℚ) })

/-- Grouping key of the season average: the season of the local date
(the `df_day["season"]` categorical), by its code, with the location. -/
def seasonKey (d : DayRow) : String × ℕ := (d.location, seasonIdx (monthOf d.date_local))

/-- `main` step 4: per location (outer `groupby("location")`), the mean
of the daily utilisations per season
(`grp.groupby("season")["utilisation"].mean()`); season categories are
ordered Winter→Fall, locations sort lexicographically, so the rows are
ordered by `(location, season code)`. -/
def season_avg (ds : List DayRow) : List SeasonRow :=
  (sortKeys lexLe (ds.map seasonKey)).map (fun k =>
    let g := ds.filter (fun d => seasonKey d = k)
    { location := k.1
      seasonCode := k.2
      season := seasonName k.2
      avg_utilisation := (g.map (fun d => d.utilisation)).sum / (g.length : ℚ) })

/-! ## Concrete inputs used by witnesses and counterexamples -/

/-- A raw API record whose `available_spot_count` exceeds its capacity. -/
def badApiRecord : ApiRecord :=
  { location := "Tribeca", start_dt := 202401011000, capacity := 4, available_spot_count := 6 }

/-- A well-formed raw API record (`0 ≤ available ≤ capacity`). -/
def goodApiRecord : ApiRecord :=
  { location := "Tribeca", start_dt := 202401011000, capacity := 4, available_spot_count := 1 }

/-- Two canonical rows at the same location and hour, capacities 4 and 4,
booked 1 and 3 (the end-to-end scenario of the spec). -/
def rowA : Row :=
  { location := "Tribeca", capacity := 4, bays_booked := 1, util := 1/4,
    start_dt := 202401011000 }

/-- Second row of the shared-slot scenario. -/
def rowB : Row :=
  { location := "Tribeca", capacity := 4, bays_booked := 3, util := 3/4,
    start_dt := 202401011000 }

/-- Two rows on two Mondays (2024-01-01 and 2024-01-08) with different
capacities: day utilisations 1 and 0, so the day-of-week mean is 1/2
while the ratio of summed booked to summed capacity is 4/12 = 1/3. -/
def rowMon1 : Row :=
  { location := "Tribeca", capacity := 4, bays_booked := 4, util := 1,
    start_dt := 202401011000 }

/-- Second Monday row of the mean-vs-ratio scenario (zero booked,
capacity 8). -/
def rowMon2 : Row :=
  { location := "Tribeca", capacity := 8, bays_booked := 0, util := 0,
    start_dt := 202401081000 }

/-- A row on Friday 2024-01-05: with `rowMon1` it shows the Monday row
printed before the Friday row although "Friday" < "Monday"
alphabetically. -/
def rowFri : Row :=
  { location := "Tribeca", capacity := 4, bays_booked := 2, util := 1/2,
    start_dt := 202401051000 }

/-- The hourly rollup row of the one-record stream `[rowA]`. -/
def hourRowA : HourRow :=
  { location := "Tribeca", start_dt := 202401011000, bay_hours_offered := 4,
    bay_hours_sold := 1, utilisation := 1/4 }

/-! ## Lemmas about the label interpreter -/

/-- The fixed character list of `halfOpenLit`. -/
lemma halfOpenLit_chars :
    halfOpenLit = ['(', '1', '/', '2', ' ', 'o', 'p', 'e', 'n', ')'] := rfl

/-- The pattern matches at the character `'1'` of any occurrence of
`"1/2 open"`, whatever follows. -/
lemma matchFracOpen_halfOpen (rest : List Char) :
    matchFracOpen ('1' :: '/' :: '2' :: ' ' :: 'o' :: 'p' :: 'e' :: 'n' :: rest) =
      some (1, 2) := by
  simp [matchFracOpen, takeDigits, dropSpaces, isPySpace, openLit, digitsVal,
    List.isPrefixOf]

/-- Nothing matches in the empty string. -/
lemma matchFracOpen_nil : matchFracOpen [] = none := rfl

/-- If the pattern matches at some position of `s`, the search succeeds. -/
lemma searchFracOpen_isSome {s : List Char} {i : ℕ} {r : ℕ × ℕ}
    (h : matchFracOpen (s.drop i) = some r) : ∃ q, searchFracOpen s = some q := by
  induction s generalizing i with
  | nil =>
    rw [List.drop_nil, matchFracOpen_nil] at h
    cases h
  | cons c cs ih =>
    cases i with
    | zero =>
      rw [List.drop_zero] at h
      exact ⟨r, by rw [searchFracOpen, h]⟩
    | succ j =>
      have h' : matchFracOpen (cs.drop j) = some r := h
      obtain ⟨q, hq⟩ := ih h'
      cases hm : matchFracOpen (c :: cs) with
      | some a => exact ⟨a, by rw [searchFracOpen, hm]⟩
      | none => exact ⟨q, by rw [searchFracOpen, hm, hq]⟩

/-- A successful `isPrefixOf` exhibits the suffix. -/
lemma isPrefixOf_ex : ∀ (pat s : List Char), pat.isPrefixOf s = true →
    ∃ suf, s = pat ++ suf
  | [], s, _ => ⟨s, rfl⟩
  | _ :: _, [], h => by simp [List.isPrefixOf] at h
  | a :: as, b :: bs, h => by
    rw [List.isPrefixOf, Bool.and_eq_true, beq_iff_eq] at h
    obtain ⟨suf, hs⟩ := isPrefixOf_ex as bs h.2
    exact ⟨suf, by rw [List.cons_append, h.1, hs]⟩

/-- A successful substring test exhibits the decomposition. -/
lemma containsSub_ex : ∀ (pat s : List Char), containsSub pat s = true →
    ∃ pre suf, s = pre ++ (pat ++ suf)
  | pat, [], h => by
    rw [containsSub, List.isEmpty_iff] at h
    exact ⟨[], [], by rw [h]; rfl⟩
  | pat, c :: cs, h => by
    rw [containsSub, Bool.or_eq_true] at h
    rcases h with h | h
    · obtain ⟨suf, hs⟩ := isPrefixOf_ex _ _ h
      exact ⟨[], suf, by rw [hs]; rfl⟩
    · obtain ⟨pre, suf, hs⟩ := containsSub_ex pat cs h
      exact ⟨c :: pre, suf, by rw [hs]; rfl⟩

/-- Any string containing the exact text `"(1/2 open)"` also matches the
`(\d+)\s*/\s*(\d+)\s*open` search (at the `'1'` of that occurrence). -/
lemma searchFracOpen_of_halfOpen {s : List Char}
    (h : containsSub halfOpenLit s = true) : ∃ q, searchFracOpen s = some q := by
  obtain ⟨pre, suf, hs⟩ := containsSub_ex _ _ h
  rw [halfOpenLit_chars] at hs
  have hdecomp : s = (pre ++ ['(']) ++
      ('1' :: '/' :: '2' :: ' ' :: 'o' :: 'p' :: 'e' :: 'n' :: (')' :: suf)) := by
    rw [hs, List.append_assoc]
    rfl
  have hdrop : s.drop (pre ++ ['(']).length =
      '1' :: '/' :: '2' :: ' ' :: 'o' :: 'p' :: 'e' :: 'n' :: (')' :: suf) := by
    rw [hdecomp, List.drop_left]
  exact searchFracOpen_isSome (r := (1, 2)) (by rw [hdrop, matchFracOpen_halfOpen])

/-! ## Claims about the label interpreter -/

/-- C3: with its (hard-coded) default capacity 4, the interpreter returns
1 for `"3/4 Open"`, 4 for `"0/4 Open"`, 4 for `"Waitlist"`, 2 for
`"(1/2 Open)"`, and 0 for the unmatched string `"garbage"`. -/
theorem c3_label_examples :
    bookings_from_label "3/4 Open" = 1 ∧ bookings_from_label "0/4 Open" = 4 ∧
    bookings_from_label "Waitlist" = 4 ∧ bookings_from_label "(1/2 Open)" = 2 ∧
    bookings_from_label "garbage" = 0 := by decide

/-- C4 counterexample: on `"2/2 Open"` the code returns 2, but the
claimed rule returns 0 — whether 2 counts as a known capacity (then
`total - open_count = 0`) or not (then the fall-through reaches the
0 fallback, since the label does not contain `"(1/2 open)"`).  The
matched branch of the source never falls through to the later rules. -/
theorem c4_counterexample :
    bookings_from_label "2/2 Open" = 2 ∧
    bookings_from_label_specC4 "2/2 Open" = 0 ∧ (2 : ℤ) - 2 = 0 := by decide

/-- C4 amended: for a non-waitlist label matched by the pattern, the
interpreter returns `total - open_count` when `total = 4`, the constant 2
when `total = 2` (regardless of `open_count`), and 0 for any other
total — without ever consulting the exact-text `"(1/2 open)"` check,
which runs only when the pattern fails to match. -/
theorem c4_amended (text : String) (o tot : ℕ)
    (hw : containsSub waitlistLit (lowerStr text) = false)
    (hs : searchFracOpen (lowerStr text) = some (o, tot)) :
    bookings_from_label text =
      if tot = 4 then (4 : ℤ) - (o : ℤ) else if tot = 2 then 2 else 0 := by
  unfold bookings_from_label
  simp [hw, hs]

/-- C4 amended, witness: `"1/2 Open"` matches with total 2 and yields the
constant 2 (not `total - open_count = 1`). -/
theorem c4_amended_witness :
    containsSub waitlistLit (lowerStr "1/2 Open") = false ∧
    searchFracOpen (lowerStr "1/2 Open") = some (1, 2) ∧
    bookings_from_label "1/2 Open" =
      (if (2 : ℕ) = 4 then (4 : ℤ) - (1 : ℤ) else if (2 : ℕ) = 2 then 2 else 0) :=
  ⟨by decide, by decide, c4_amended "1/2 Open" 1 2 (by decide) (by decide)⟩

/-- C5 counterexample: the unmatched label `"garbage"` yields 0 booked,
but no diagnostic is emitted — the claimed diagnostics channel (count of
flagged records) does not exist in the code, so the event passes
silently. -/
theorem c5_counterexample :
    bookings_from_label_diag "garbage" = (0, false) ∧
    ¬ (bookings_from_label_diag "garbage").2 = true := by decide

/-- C5 amended: for every label matching no interpretation rule the
interpreter returns 0 booked and the (total) function does not abort,
but the event is not surfaced anywhere: no log, flag or counter records
it. -/
theorem c5_amended (text : String)
    (hw : containsSub waitlistLit (lowerStr text) = false)
    (hs : searchFracOpen (lowerStr text) = none)
    (hh : containsSub halfOpenLit (lowerStr text) = false) :
    bookings_from_label_diag text = (0, false) := by
  unfold bookings_from_label_diag bookings_from_label
  simp [hw, hs, hh]

/-- C5 amended, witness at the unmatched label `"garbage"`. -/
theorem c5_amended_witness :
    containsSub waitlistLit (lowerStr "garbage") = false ∧
    searchFracOpen (lowerStr "garbage") = none ∧
    containsSub halfOpenLit (lowerStr "garbage") = false ∧
    bookings_from_label_diag "garbage" = (0, false) :=
  ⟨by decide, by decide, by decide,
    c5_amended "garbage" (by decide) (by decide) (by decide)⟩

/-- C9: any label whose lowercase form contains `"waitlist"` (the
case-insensitive containment the source implements) is interpreted as
fully booked — the hard-coded default capacity 4 — before any other rule
is consulted. -/
theorem c9_waitlist_priority (text : String)
    (h : containsSub waitlistLit (lowerStr text) = true) :
    bookings_from_label text = 4 := by
  unfold bookings_from_label
  simp [h]

/-- C9 witness: a label in mixed case that also matches the fraction
pattern is still interpreted as waitlist (priority over rule 2). -/
theorem c9_waitlist_priority_witness :
    containsSub waitlistLit (lowerStr "3/4 Open WAITLIST") = true ∧
    bookings_from_label "3/4 Open WAITLIST" = 4 :=
  ⟨by decide, c9_waitlist_priority _ (by decide)⟩

/-- C10: deleting the exact-text `"(1/2 open)"` fallback branch does not
change the function on any input: the branch only runs when the pattern
search failed, yet any text containing `"(1/2 open)"` makes the search
succeed, so the branch is unreachable (and when the search matches
`"1/2 open"` the total-2 branch returns the same value 2). -/
theorem c10_halfopen_fallback_unreachable (text : String) :
    bookings_from_label text = bookings_from_label_nofb text := by
  unfold bookings_from_label bookings_from_label_nofb
  cases hw : containsSub waitlistLit (lowerStr text) with
  | true => simp [hw]
  | false =>
    simp only [hw, Bool.false_eq_true, if_false]
    cases hs : searchFracOpen (lowerStr text) with
    | some r => simp
    | none =>
      simp only []
      cases hh : containsSub halfOpenLit (lowerStr text) with
      | false => simp [hh]
      | true =>
        obtain ⟨q, hq⟩ := searchFracOpen_of_halfOpen hh
        rw [hq] at hs
        cases hs

/-! ## Lemmas about grouped aggregation -/

/-- Sorted keys are produced for every input. -/
lemma sortKeys_sorted {κ : Type} [DecidableEq κ] (le : κ → κ → Prop)
    [DecidableRel le] [IsTotal κ le] [IsTrans κ le] (ks : List κ) :
    List.Sorted le (sortKeys le ks) :=
  List.sorted_insertionSort le ks.dedup

/-- Key-list membership is preserved by `sortKeys`. -/
lemma mem_sortKeys {κ : Type} [DecidableEq κ] (le : κ → κ → Prop)
    [DecidableRel le] {k : κ} {ks : List κ} : k ∈ sortKeys le ks ↔ k ∈ ks := by
  rw [sortKeys, (List.perm_insertionSort le ks.dedup).mem_iff, List.mem_dedup]

/-- `sortKeys` has no duplicate keys. -/
lemma sortKeys_nodup {κ : Type} [DecidableEq κ] (le : κ → κ → Prop)
    [DecidableRel le] (ks : List κ) : (sortKeys le ks).Nodup :=
  ((List.perm_insertionSort le ks.dedup).nodup_iff).mpr (List.nodup_dedup ks)

/-- `sortKeys` only depends on the multiset of keys: permuted key columns
give the same sorted distinct key list. -/
lemma sortKeys_congr {κ : Type} [DecidableEq κ] (le : κ → κ → Prop)
    [DecidableRel le] [IsTotal κ le] [IsTrans κ le] [IsAntisymm κ le]
    {ks₁ ks₂ : List κ} (h : ks₁.Perm ks₂) : sortKeys le ks₁ = sortKeys le ks₂ :=
  List.eq_of_perm_of_sorted
    ((List.perm_insertionSort le ks₁.dedup).trans
      (h.dedup.trans (List.perm_insertionSort le ks₂.dedup).symm))
    (sortKeys_sorted le ks₁) (sortKeys_sorted le ks₂)

/-- Splitting a mapped sum along a Boolean predicate. -/
lemma sum_map_filter_not {ρ M : Type} [AddCommMonoid M] (p : ρ → Bool) (f : ρ → M) :
    ∀ l : List ρ,
      ((l.filter p).map f).sum + ((l.filter (fun a => !(p a))).map f).sum = (l.map f).sum
  | [] => by simp
  | a :: l => by
    cases hp : p a with
    | true =>
      rw [List.filter_cons_of_pos (by simp [hp]), List.filter_cons_of_neg (by simp [hp])]
      rw [List.map_cons, List.sum_cons, add_assoc, sum_map_filter_not p f l,
        List.map_cons, List.sum_cons]
    | false =>
      rw [List.filter_cons_of_neg (by simp [hp]), List.filter_cons_of_pos (by simp [hp])]
      rw [List.map_cons, List.sum_cons, add_left_comm, sum_map_filter_not p f l,
        List.map_cons, List.sum_cons]

/-- Fiberwise decomposition of a mapped sum: summing, over a duplicate-free
key list covering every record, the sums of the member records of each
key, gives the sum over all records. -/
lemma sum_partition {ρ κ M : Type} [DecidableEq κ] [AddCommMonoid M]
    (key : ρ → κ) (f : ρ → M) :
    ∀ (ks : List κ) (l : List ρ), ks.Nodup → (∀ r ∈ l, key r ∈ ks) →
      (ks.map (fun k => ((l.filter (fun r => key r = k)).map f).sum)).sum = (l.map f).sum
  | [], l, _, hcov => by
    have hl : l = [] :=
      List.eq_nil_iff_forall_not_mem.mpr (fun r hr => (List.not_mem_nil _) (hcov r hr))
    subst hl
    simp
  | k :: ks, l, hnd, hcov => by
    have hk_not : k ∉ ks := (List.nodup_cons.mp hnd).1
    have hnd' : ks.Nodup := (List.nodup_cons.mp hnd).2
    rw [List.map_cons, List.sum_cons]
    have htail : ks.map (fun k' => ((l.filter (fun r => key r = k')).map f).sum)
        = ks.map (fun k' =>
            (((l.filter (fun r => !(decide (key r = k)))).filter
                (fun r => key r = k')).map f).sum) := by
      apply List.map_congr_left
      intro k' hk'
      have hkk : k' ≠ k := fun h => hk_not (h ▸ hk')
      rw [List.filter_filter]
      congr 1
      congr 1
      apply List.filter_congr
      intro r _
      by_cases hr : key r = k'
      · simp [hr, hkk]
      · simp [hr]
    rw [htail, sum_partition key f ks (l.filter (fun r => !(decide (key r = k)))) hnd'
      (fun r hr => by
        have hrl : r ∈ l := List.mem_of_mem_filter hr
        have hne : ¬ (key r = k) := by
          have := List.of_mem_filter hr
          simpa using this
        rcases hcov r hrl with hmem
        rw [List.mem_cons] at hmem
        rcases hmem with h | h
        · exact absurd h hne
        · exact h)]
    exact sum_map_filter_not (fun r => decide (key r = k)) f l

/-- The hourly rollup only depends on the multiset of canonical records. -/
lemma hourRollup_perm {l₁ l₂ : List Row} (h : l₁.Perm l₂) :
    hourRollup l₁ = hourRollup l₂ := by
  unfold hourRollup
  rw [sortKeys_congr lexLe (h.map hourKey)]
  apply List.map_congr_left
  intro k _
  have hf : (l₁.filter (fun r => hourKey r = k)).Perm
      (l₂.filter (fun r => hourKey r = k)) := h.filter _
  have hcap : ((l₁.filter (fun r => hourKey r = k)).map (fun r => r.capacity)).sum
      = ((l₂.filter (fun r => hourKey r = k)).map (fun r => r.capacity)).sum :=
    (hf.map _).sum_eq
  have hsold : ((l₁.filter (fun r => hourKey r = k)).map (fun r => r.bays_booked)).sum
      = ((l₂.filter (fun r => hourKey r = k)).map (fun r => r.bays_booked)).sum :=
    (hf.map _).sum_eq
  dsimp only
  rw [hcap, hsold]

/-- Rows built from sorted keys are pairwise ordered by their keys, as
soon as the key can be read back off the built row. -/
lemma pairwise_rollup {κ E : Type} [DecidableEq κ] (le : κ → κ → Prop)
    [DecidableRel le] [IsTotal κ le] [IsTrans κ le]
    (ks : List κ) (f : κ → E) (keyOf : E → κ) (hkf : ∀ k, keyOf (f k) = k) :
    List.Pairwise (fun a b => le (keyOf a) (keyOf b)) ((sortKeys le ks).map f) :=
  List.Pairwise.map f (fun a b hab => by rw [hkf, hkf]; exact hab)
    (sortKeys_sorted le ks)

/-- The key partition lemma specialised to the daily regrouping of the
hourly keys: summing, over the hourly keys of a given daily key, the
per-hourly-key sums of a record column, yields the sum of that column
over the raw records of the daily key. -/
lemma day_group_sum (l : List Row) (kd : String × ℕ) (f : Row → ℤ) :
    (((sortKeys lexLe (l.map hourKey)).filter
        (fun k => (k.1, dateOf k.2) = kd)).map
      (fun k => ((l.filter (fun r => hourKey r = k)).map f).sum)).sum
      = ((l.filter (fun r => dayRawKey r = kd)).map f).sum := by
  have hnd : ((sortKeys lexLe (l.map hourKey)).filter
      (fun k => (k.1, dateOf k.2) = kd)).Nodup :=
    (sortKeys_nodup lexLe _).filter _
  have hcov : ∀ r ∈ l.filter (fun r => dayRawKey r = kd),
      hourKey r ∈ (sortKeys lexLe (l.map hourKey)).filter
        (fun k => (k.1, dateOf k.2) = kd) := by
    intro r hr
    rw [List.mem_filter]
    refine ⟨(mem_sortKeys lexLe).mpr
      (List.mem_map_of_mem hourKey (List.mem_of_mem_filter hr)), ?_⟩
    have hd := List.of_mem_filter hr
    simpa [hourKey, dayRawKey] using hd
  have hmain := sum_partition hourKey f _ (l.filter (fun r => dayRawKey r = kd)) hnd hcov
  rw [← hmain]
  apply congrArg List.sum
  apply List.map_congr_left
  intro k hk
  have hk2 : (k.1, dateOf k.2) = kd := by simpa using List.of_mem_filter hk
  apply congrArg List.sum
  apply congrArg (List.map f)
  rw [List.filter_filter]
  apply List.filter_congr
  intro r _
  by_cases hr : hourKey r = k
  · have hdr : dayRawKey r = kd := by
      have : dayRawKey r = ((hourKey r).1, dateOf (hourKey r).2) := rfl
      rw [this, hr, hk2]
    simp [hr, hdr]
  · simp [hr]

/-! ## Claims about normalisation and aggregation -/

/-- C2 counterexample: an API record with `available_spot_count = 6` and
`capacity = 4` is normalised to `booked = -2`, violating
`0 ≤ booked ≤ capacity`, and the row is retained in the stream unchanged
— nothing is clamped, flagged or rejected. -/
theorem c2_counterexample :
    (fetch_rows [badApiRecord]).map (fun r => r.bays_booked) = [-2] ∧
    ¬ (0 ≤ (-2 : ℤ)) ∧ (fetch_rows [badApiRecord]).length = 1 := by
  refine ⟨by decide, by decide, by decide⟩

/-- C2 amended: `fetch_range` computes `booked = capacity -
available_spot_count` with no validation and retains every record; the
invariant `0 ≤ booked ≤ capacity` therefore holds exactly when the raw
record satisfies `0 ≤ available_spot_count ≤ capacity`, and records
violating it are kept silently rather than clamped-and-flagged or
rejected-and-counted. -/
theorem c2_amended (rs : List ApiRecord)
    (h : ∀ a ∈ rs, 0 ≤ a.available_spot_count ∧ a.available_spot_count ≤ a.capacity) :
    (fetch_rows rs).length = rs.length ∧
    ∀ row ∈ fetch_rows rs, 0 ≤ row.bays_booked ∧ row.bays_booked ≤ row.capacity := by
  refine ⟨by simp [fetch_rows], ?_⟩
  intro row hrow
  rw [fetch_rows, List.mem_map] at hrow
  obtain ⟨a, ha, rfl⟩ := hrow
  obtain ⟨h1, h2⟩ := h a ha
  constructor
  · simpa using h2
  · simpa using h1

/-- C2 amended, witness on a well-formed record. -/
theorem c2_amended_witness :
    (∀ a ∈ [goodApiRecord], 0 ≤ a.available_spot_count ∧ a.available_spot_count ≤ a.capacity) ∧
    ((fetch_rows [goodApiRecord]).length = [goodApiRecord].length ∧
      ∀ row ∈ fetch_rows [goodApiRecord], 0 ≤ row.bays_booked ∧ row.bays_booked ≤ row.capacity) :=
  ⟨by decide, c2_amended [goodApiRecord] (by decide)⟩

/-- C7: the hourly rollup sums capacity and booked over all records
sharing a `(location, start_dt)` key instead of overwriting: two records
at one key produce a single row carrying the summed capacity, the summed
booked count and their ratio; in particular capacities 4 and 4 with
booked 1 and 3 report capacity 8, booked 4, utilisation 1/2. -/
theorem c7_hour_slot_sums :
    (∀ (loc : String) (ts : ℕ) (c₁ b₁ c₂ b₂ : ℤ) (u₁ u₂ : ℚ),
      hourRollup [⟨loc, c₁, b₁, u₁, ts⟩, ⟨loc, c₂, b₂, u₂, ts⟩] =
        [{ location := loc, start_dt := ts, bay_hours_offered := c₁ + c₂,
           bay_hours_sold := b₁ + b₂,
           utilisation := ((b₁ + b₂ : ℤ) : ℚ) / ((c₁ + c₂ : ℤ) : ℚ) }]) ∧
    hourRollup [rowA, rowB] =
      [{ location := "Tribeca", start_dt := 202401011000, bay_hours_offered := 8,
         bay_hours_sold := 4, utilisation := 1/2 }] := by
  constructor
  · intro loc ts c₁ b₁ c₂ b₂ u₁ u₂
    simp [hourRollup, sortKeys, hourKey, List.insertionSort, List.orderedInsert]
  · norm_num [hourRollup, sortKeys, hourKey, rowA, rowB, lexLe,
      List.insertionSort, List.orderedInsert, List.dedup, List.pwFilter]

/-- C6: the aggregation is a pure order-independent fold — permuted
record streams produce identical hourly, daily, day-of-week and season
tables — and each table is deterministically ordered by its key
(locations lexicographically, then timestamp / date / categorical
code). -/
theorem c6_order_independent (l₁ l₂ : List Row) (h : l₁.Perm l₂) :
    (hourRollup l₁ = hourRollup l₂ ∧
     dayRollup (hourRollup l₁) = dayRollup (hourRollup l₂) ∧
     dow_avg (dayRollup (hourRollup l₁)) = dow_avg (dayRollup (hourRollup l₂)) ∧
     season_avg (dayRollup (hourRollup l₁)) = season_avg (dayRollup (hourRollup l₂))) ∧
    (List.Pairwise (fun a b => lexLe (a.location, a.start_dt) (b.location, b.start_dt))
        (hourRollup l₁) ∧
     List.Pairwise (fun a b => lexLe (a.location, a.date_local) (b.location, b.date_local))
        (dayRollup (hourRollup l₁)) ∧
     List.Pairwise (fun a b => lexLe (a.location, a.dowCode) (b.location, b.dowCode))
        (dow_avg (dayRollup (hourRollup l₁))) ∧
     List.Pairwise (fun a b => lexLe (a.location, a.seasonCode) (b.location, b.seasonCode))
        (season_avg (dayRollup (hourRollup l₁)))) := by
  have hH := hourRollup_perm h
  refine ⟨⟨hH, by rw [hH], by rw [hH], by rw [hH]⟩, ?_, ?_, ?_, ?_⟩
  · unfold hourRollup
    exact pairwise_rollup lexLe _ _ (fun e : HourRow => (e.location, e.start_dt)) (fun k => rfl)
  · unfold dayRollup
    exact pairwise_rollup lexLe _ _ (fun e : DayRow => (e.location, e.date_local)) (fun k => rfl)
  · unfold dow_avg
    exact pairwise_rollup lexLe _ _ (fun e : DowRow => (e.location, e.dowCode)) (fun k => rfl)
  · unfold season_avg
    exact pairwise_rollup lexLe _ _ (fun e : SeasonRow => (e.location, e.seasonCode)) (fun k => rfl)

/-- C6 witness: the two-record stream and its transposition. -/
theorem c6_order_independent_witness :
    ([rowA, rowB].Perm [rowB, rowA]) ∧
    ((hourRollup [rowA, rowB] = hourRollup [rowB, rowA] ∧
      dayRollup (hourRollup [rowA, rowB]) = dayRollup (hourRollup [rowB, rowA]) ∧
      dow_avg (dayRollup (hourRollup [rowA, rowB])) =
        dow_avg (dayRollup (hourRollup [rowB, rowA])) ∧
      season_avg (dayRollup (hourRollup [rowA, rowB])) =
        season_avg (dayRollup (hourRollup [rowB, rowA]))) ∧
     (List.Pairwise (fun a b => lexLe (a.location, a.start_dt) (b.location, b.start_dt))
        (hourRollup [rowA, rowB]) ∧
      List.Pairwise (fun a b => lexLe (a.location, a.date_local) (b.location, b.date_local))
        (dayRollup (hourRollup [rowA, rowB])) ∧
      List.Pairwise (fun a b => lexLe (a.location, a.dowCode) (b.location, b.dowCode))
        (dow_avg (dayRollup (hourRollup [rowA, rowB]))) ∧
      List.Pairwise (fun a b => lexLe (a.location, a.seasonCode) (b.location, b.seasonCode))
        (season_avg (dayRollup (hourRollup [rowA, rowB]))))) :=
  ⟨List.Perm.swap rowB rowA [],
    c6_order_independent [rowA, rowB] [rowB, rowA] (List.Perm.swap rowB rowA [])⟩

/-- C1 counterexample: the two records are the exact members of the
single (Tribeca, Monday) day-of-week group (two Mondays, capacities
4 and 8, booked 4 and 0).  The day-of-week table reports the mean of the
two per-day utilisations, `(1 + 0)/2 = 1/2`, while
`sum(booked)/sum(capacity)` over the member records is `4/12 = 1/3` —
so at the day-of-week level utilisation is not the summed ratio but the
mean of child utilisations. -/
theorem c1_counterexample :
    dow_avg (dayRollup (hourRollup [rowMon1, rowMon2])) =
      [{ location := "Tribeca", dowCode := 0, dow := "Monday", avg_utilisation := 1/2 }] ∧
    ((([rowMon1, rowMon2] : List Row).map (fun r => r.bays_booked)).sum : ℚ) /
        ((([rowMon1, rowMon2] : List Row).map (fun r => r.capacity)).sum : ℚ) = 1/3 ∧
    (1/2 : ℚ) ≠ 1/3 := by
  refine ⟨?_, by norm_num [rowMon1, rowMon2], by norm_num⟩
  norm_num [dow_avg, dayRollup, hourRollup, sortKeys, hourKey, dayKey, dowKey,
    rowMon1, rowMon2, lexLe, dateOf, dowIdx, monthOf, dayName, dowOrderIdx,
    List.insertionSort, List.orderedInsert, List.dedup, List.pwFilter]

/-- C1 amended: the hourly and daily rollups report
`sum(booked)/sum(capacity)` over the exact raw member records of each
group; the day-of-week and season tables instead report the unweighted
mean of the member day utilisations of each group. -/
theorem c1_sum_ratio_amended (l : List Row) :
    (∀ hr ∈ hourRollup l,
      hr.bay_hours_offered =
        ((l.filter (fun r => hourKey r = (hr.location, hr.start_dt))).map
          (fun r => r.capacity)).sum ∧
      hr.bay_hours_sold =
        ((l.filter (fun r => hourKey r = (hr.location, hr.start_dt))).map
          (fun r => r.bays_booked)).sum ∧
      hr.utilisation = (hr.bay_hours_sold : ℚ) / (hr.bay_hours_offered : ℚ)) ∧
    (∀ dr ∈ dayRollup (hourRollup l),
      dr.hours_offered =
        ((l.filter (fun r => dayRawKey r = (dr.location, dr.date_local))).map
          (fun r => r.capacity)).sum ∧
      dr.hours_sold =
        ((l.filter (fun r => dayRawKey r = (dr.location, dr.date_local))).map
          (fun r => r.bays_booked)).sum ∧
      dr.utilisation = (dr.hours_sold : ℚ) / (dr.hours_offered : ℚ)) ∧
    (∀ w ∈ dow_avg (dayRollup (hourRollup l)),
      w.avg_utilisation =
        (((dayRollup (hourRollup l)).filter
            (fun d => dowKey d = (w.location, w.dowCode))).map
          (fun d => d.utilisation)).sum /
        (((dayRollup (hourRollup l)).filter
            (fun d => dowKey d = (w.location, w.dowCode))).length : ℚ)) ∧
    (∀ sr ∈ season_avg (dayRollup (hourRollup l)),
      sr.avg_utilisation =
        (((dayRollup (hourRollup l)).filter
            (fun d => seasonKey d = (sr.location, sr.seasonCode))).map
          (fun d => d.utilisation)).sum /
        (((dayRollup (hourRollup l)).filter
            (fun d => seasonKey d = (sr.location, sr.seasonCode))).length : ℚ)) := by
  refine ⟨?_, ?_, ?_, ?_⟩
  · intro hr hmem
    rw [hourRollup] at hmem
    obtain ⟨k, hk, rfl⟩ := List.mem_map.mp hmem
    exact ⟨rfl, rfl, rfl⟩
  · intro dr hmem
    rw [dayRollup] at hmem
    obtain ⟨kd, hkd, rfl⟩ := List.mem_map.mp hmem
    refine ⟨?_, ?_, rfl⟩
    · show (((hourRollup l).filter (fun hh => dayKey hh = kd)).map
          (fun hh => hh.bay_hours_offered)).sum =
        ((l.filter (fun r => dayRawKey r = kd)).map (fun r => r.capacity)).sum
      rw [hourRollup, List.filter_map, List.map_map]
      exact day_group_sum l kd (fun r => r.capacity)
    · show (((hourRollup l).filter (fun hh => dayKey hh = kd)).map
          (fun hh => hh.bay_hours_sold)).sum =
        ((l.filter (fun r => dayRawKey r = kd)).map (fun r => r.bays_booked)).sum
      rw [hourRollup, List.filter_map, List.map_map]
      exact day_group_sum l kd (fun r => r.bays_booked)
  · intro w hmem
    rw [dow_avg] at hmem
    obtain ⟨k, hk, rfl⟩ := List.mem_map.mp hmem
    rfl
  · intro sr hmem
    rw [season_avg] at hmem
    obtain ⟨k, hk, rfl⟩ := List.mem_map.mp hmem
    rfl

/-- C1 amended, witness: the hourly row of the one-record stream
`[rowA]` satisfies the summed-ratio field equations. -/
theorem c1_sum_ratio_amended_witness :
    hourRowA ∈ hourRollup [rowA] ∧
    (hourRowA.bay_hours_offered =
      (([rowA].filter (fun r => hourKey r = (hourRowA.location, hourRowA.start_dt))).map
        (fun r => r.capacity)).sum ∧
    hourRowA.bay_hours_sold =
      (([rowA].filter (fun r => hourKey r = (hourRowA.location, hourRowA.start_dt))).map
        (fun r => r.bays_booked)).sum ∧
    hourRowA.utilisation = (hourRowA.bay_hours_sold : ℚ) / (hourRowA.bay_hours_offered : ℚ)) :=
  have hmem : hourRowA ∈ hourRollup [rowA] := by
    have hval : hourRollup [rowA] = [hourRowA] := by
      norm_num [hourRollup, sortKeys, hourKey, rowA, hourRowA, lexLe,
        List.insertionSort, List.orderedInsert, List.dedup, List.pwFilter]
    rw [hval]
    exact List.mem_singleton.mpr rfl
  ⟨hmem, (c1_sum_ratio_amended [rowA]).1 hourRowA hmem⟩

/-- C8: the day-of-week table maps each `(location, day-of-week)` key to
the mean of that group's per-day utilisation values; its rows are
invariant under reordering of the input records and are ordered by
location and then by the Monday→Sunday categorical code — in particular
a Monday row precedes a Friday row although "Friday" < "Monday"
alphabetically. -/
theorem c8_dow_table (l₁ l₂ : List Row) (h : l₁.Perm l₂) :
    dow_avg (dayRollup (hourRollup l₁)) = dow_avg (dayRollup (hourRollup l₂)) ∧
    List.Pairwise (fun a b => lexLe (a.location, a.dowCode) (b.location, b.dowCode))
      (dow_avg (dayRollup (hourRollup l₁))) ∧
    (∀ w ∈ dow_avg (dayRollup (hourRollup l₁)),
      w.avg_utilisation =
        (((dayRollup (hourRollup l₁)).filter
            (fun d => dowKey d = (w.location, w.dowCode))).map
          (fun d => d.utilisation)).sum /
        (((dayRollup (hourRollup l₁)).filter
            (fun d => dowKey d = (w.location, w.dowCode))).length : ℚ)) ∧
    (dow_avg (dayRollup (hourRollup [rowMon1, rowFri]))).map (fun w => w.dow) =
      ["Monday", "Friday"] := by
  refine ⟨by rw [hourRollup_perm h], ?_, ?_, ?_⟩
  · unfold dow_avg
    exact pairwise_rollup lexLe _ _ (fun e : DowRow => (e.location, e.dowCode)) (fun k => rfl)
  · intro w hmem
    rw [dow_avg] at hmem
    obtain ⟨k, hk, rfl⟩ := List.mem_map.mp hmem
    rfl
  · norm_num [dow_avg, dayRollup, hourRollup, sortKeys, hourKey, dayKey, dowKey,
      rowMon1, rowFri, lexLe, dateOf, dowIdx, monthOf, dayName, dowOrderIdx,
      List.insertionSort, List.orderedInsert, List.dedup, List.pwFilter]
    decide

/-- C8 witness: the Monday/Friday stream and its transposition. -/
theorem c8_dow_table_witness :
    ([rowMon1, rowFri].Perm [rowFri, rowMon1]) ∧
    (dow_avg (dayRollup (hourRollup [rowMon1, rowFri])) =
        dow_avg (dayRollup (hourRollup [rowFri, rowMon1])) ∧
     List.Pairwise (fun a b => lexLe (a.location, a.dowCode) (b.location, b.dowCode))
        (dow_avg (dayRollup (hourRollup [rowMon1, rowFri]))) ∧
     (∀ w ∈ dow_avg (dayRollup (hourRollup [rowMon1, rowFri])),
        w.avg_utilisation =
          (((dayRollup (hourRollup [rowMon1, rowFri])).filter
              (fun d => dowKey d = (w.location, w.dowCode))).map
            (fun d => d.utilisation)).sum /
          (((dayRollup (hourRollup [rowMon1, rowFri])).filter
              (fun d => dowKey d = (w.location, w.dowCode))).length : ℚ)) ∧
     (dow_avg (dayRollup (hourRollup [rowMon1, rowFri]))).map (fun w => w.dow) =
        ["Monday", "Friday"]) :=
  ⟨List.Perm.swap rowFri rowMon1 [],
    c8_dow_table [rowMon1, rowFri] [rowFri, rowMon1] (List.Perm.swap rowFri rowMon1 [])⟩
